import Mathlib

set_option maxRecDepth 100000

/-!
Verification of the session-token subsystem of the hand-write-translator
repository: the token issuer (supabase/functions/create-session), the shared
verifier (supabase/functions/_shared/auth.ts), the per-IP sliding-window rate
limiters, the client session manager (src/hooks/useSessionToken.ts), the
toggle-favorite ownership check, and the sessionId validation of the save
endpoint (the save-to-Drive-and-Sheets edge function).

JavaScript strings are modelled as lists of UTF-16 code units (List Nat);
all strings the token pipeline manipulates are Latin-1, so a code unit is a
byte wherever btoa and atob are involved.  The host primitives are modelled as
follows:
* btoa and atob are implemented concretely (standard base64 with the
  base64url substitutions and the padding handling performed by the
  source); atob follows WHATWG forgiving base64, including the removal of
  ASCII whitespace and the conditional stripping of trailing padding.
* JSON.stringify on the issuer payload object is implemented concretely for
  payloads whose string fields need no escaping (true of every sid the
  issuer generates and of every allow-listed origin).  JSON.parse is
  modelled in two parts: a recognizer of the full ECMA-404 grammar decides
  whether JSON.parse succeeds at all, and a reader of the exact issuer
  serialization recovers the payload value on the canonical shape; the
  value JSON.parse produces for other well-formed JSON texts is outside
  the model, and every statement over payloads stays on inputs where the
  two parts determine the program's behaviour.
* HMAC-SHA256 (together with the TextEncoder step) is an arbitrary
  deterministic function of the secret and the message, passed as a
  parameter; the issuer and verifier share it, mirroring the shared secret.
-/

/-! ## Code units, character codes -/

/-- Code units of a Lean string literal, used to transcribe the string
literals of the source. -/
def strBytes (s : String) : List Nat := s.data.map Char.toNat

/-! ## Base64url, as performed by createSessionToken and verifySessionToken -/

/-- Character (code) at an index of the base64url alphabet
A-Z a-z 0-9 - _ ; this folds the two replace calls of the source into the
alphabet. -/
def b64uChar (n : Nat) : Nat :=
  if n < 26 then 65 + n
  else if n < 52 then 97 + (n - 26)
  else if n < 62 then 48 + (n - 52)
  else if n = 62 then 45
  else if n = 63 then 95
  else 65

/-- Index of a character code in the base64 alphabet.  Both the url variant
(- _) and the standard variant (+ /) decode, because the verifier replaces
- and _ before calling atob and atob itself accepts + and /. -/
def b64uVal (c : Nat) : Option Nat :=
  if 65 ≤ c ∧ c ≤ 90 then some (c - 65)
  else if 97 ≤ c ∧ c ≤ 122 then some (26 + (c - 97))
  else if 48 ≤ c ∧ c ≤ 57 then some (52 + (c - 48))
  else if c = 45 ∨ c = 43 then some 62
  else if c = 95 ∨ c = 47 then some 63
  else none

/-- Encoding of one full 3-byte group. -/
def encode3 (a b c : Nat) : List Nat :=
  [b64uChar (a / 4), b64uChar (a % 4 * 16 + b / 16),
   b64uChar (b % 16 * 4 + c / 64), b64uChar (c % 64)]

/-- Base64url encoding with the trailing padding already stripped, exactly
the composite btoa-replace-replace-strip that createSessionToken performs. -/
def b64EncodeBytes : List Nat → List Nat
  | [] => []
  | [a] => [b64uChar (a / 4), b64uChar (a % 4 * 16)]
  | [a, b] => [b64uChar (a / 4), b64uChar (a % 4 * 16 + b / 16), b64uChar (b % 16 * 4)]
  | a :: b :: c :: rest => encode3 a b c ++ b64EncodeBytes rest

/-- Forgiving base64 decoding of a padding-free character sequence: 4-char
groups give 3 bytes, a final group of 2 or 3 gives 1 or 2 bytes, a final
single character (or any character outside the alphabet, including a stray
padding sign) is an error, matching atob. -/
def b64DecodeChars : List Nat → Option (List Nat)
  | [] => some []
  | [_] => none
  | [c1, c2] => do
      let v1 ← b64uVal c1
      let v2 ← b64uVal c2
      some [v1 * 4 + v2 / 16]
  | [c1, c2, c3] => do
      let v1 ← b64uVal c1
      let v2 ← b64uVal c2
      let v3 ← b64uVal c3
      some [v1 * 4 + v2 / 16, v2 % 16 * 16 + v3 / 4]
  | c1 :: c2 :: c3 :: c4 :: rest => do
      let v1 ← b64uVal c1
      let v2 ← b64uVal c2
      let v3 ← b64uVal c3
      let v4 ← b64uVal c4
      let tail ← b64DecodeChars rest
      some ((v1 * 4 + v2 / 16) :: (v2 % 16 * 16 + v3 / 4) :: (v3 % 4 * 64 + v4) :: tail)

/-- Padding a segment to a multiple of 4 with the padding sign, the padEnd
call the verifier performs before atob. -/
def padTo4 (s : List Nat) : List Nat := s ++ List.replicate ((4 - s.length % 4) % 4) 61

/-- Removal of up to two leading padding signs of a reversed sequence. -/
def dropPadRev (l : List Nat) : List Nat :=
  match l with
  | c1 :: c2 :: r => if c1 = 61 then (if c2 = 61 then r else c2 :: r) else l
  | c1 :: r => if c1 = 61 then r else l
  | [] => []

/-- Removal of up to two trailing padding signs, performed by atob on a
length-divisible-by-4 input. -/
def dropPad (s : List Nat) : List Nat := (dropPadRev s.reverse).reverse

/-- ASCII whitespace removed by forgiving base64: tab, line feed, form
feed, carriage return, space. -/
def isB64Ws (c : Nat) : Bool := decide (c = 9 ∨ c = 10 ∨ c = 12 ∨ c = 13 ∨ c = 32)

/-- The atob primitive (WHATWG forgiving base64): remove ASCII whitespace,
strip up to two trailing padding signs when the remaining length divides by
4, then decode; a remaining padding sign, a character outside the alphabet
or a final length of 1 modulo 4 is an error. -/
def atobForgiving (x : List Nat) : Option (List Nat) :=
  let y := x.filter (fun c => !isB64Ws c)
  let z := if y.length % 4 = 0 then dropPad y else y
  b64DecodeChars z

/-- The composite decoding the verifier performs on one token segment:
replace - and _ (folded into b64uVal), pad to a multiple of 4, atob. -/
def base64urlDecode (s : List Nat) : Option (List Nat) :=
  atobForgiving (padTo4 s)

/-! ## Decimal rendering and reading of numbers -/

/-- Accumulator form of the decimal digit expansion. -/
def natToDigitsAux (n : Nat) (acc : List Nat) : List Nat :=
  if _h : n < 10 then (48 + n) :: acc
  else natToDigitsAux (n / 10) ((48 + n % 10) :: acc)
termination_by n
decreasing_by exact Nat.div_lt_self (by omega) (by omega)

/-- Fuel-driven form of the digit expansion, structurally recursive so that
closed tokens evaluate inside the kernel; the fuel never runs out when it
starts at the number itself. -/
def natToDigitsFuel : Nat → Nat → List Nat → List Nat
  | 0, n, acc => (48 + n % 10) :: acc
  | fuel + 1, n, acc =>
    if n < 10 then (48 + n) :: acc
    else natToDigitsFuel fuel (n / 10) ((48 + n % 10) :: acc)

/-- Decimal digit character codes of a number, as a JavaScript template
literal or JSON.stringify renders an integer. -/
def natToDigits (n : Nat) : List Nat := natToDigitsFuel n n []

/-- Decimal digit test on a character code. -/
def isDigitCode (c : Nat) : Bool := decide (48 ≤ c ∧ c ≤ 57)

/-- Value of a sequence of decimal digit codes. -/
def digitsVal (ds : List Nat) : Nat := ds.foldl (fun a c => a * 10 + (c - 48)) 0

/-! ## Parsing helpers for the restricted JSON reader -/

/-- Consume an expected pattern from the front. -/
def dropPre : List Nat → List Nat → Option (List Nat)
  | [], s => some s
  | _ :: _, [] => none
  | p :: ps, c :: cs => if c = p then dropPre ps cs else none

/-- Longest boolean-satisfying front segment and the remainder. -/
def spanP (p : Nat → Bool) : List Nat → List Nat × List Nat
  | [] => ([], [])
  | c :: r =>
    if p c then
      let res := spanP p r
      (c :: res.1, res.2)
    else ([], c :: r)

/-- Read a JSON string body up to the closing quote (no escapes, matching
the escape-free strings the issuer serializes). -/
def readStr (s : List Nat) : Option (List Nat × List Nat) :=
  let res := spanP (fun c => c != 34) s
  match res.2 with
  | 34 :: r => some (res.1, r)
  | _ => none

/-- Read a nonempty run of decimal digits as a number. -/
def readNat (s : List Nat) : Option (Nat × List Nat) :=
  let res := spanP isDigitCode s
  if res.1 = [] then none
  else some (digitsVal res.1, res.2)

/-! ## The session payload (interface SessionPayload of _shared/auth.ts) -/

/-- Payload carried by a session token: sid, origin, issued-at and expiry
instants in epoch milliseconds. -/
structure SessionPayload where
  sid : List Nat
  origin : List Nat
  iat : Nat
  exp : Nat
deriving DecidableEq

/-- JSON.stringify of the payload object built by createSessionToken, whose
keys serialize in insertion order sid, origin, iat, exp; exact for string
fields that need no JSON escaping. -/
def serializePayload (p : SessionPayload) : List Nat :=
  strBytes "\x7b\"sid\":\"" ++ p.sid ++ strBytes "\",\"origin\":\"" ++ p.origin
    ++ strBytes "\",\"iat\":" ++ natToDigits p.iat
    ++ strBytes ",\"exp\":" ++ natToDigits p.exp ++ strBytes "\x7d"

/-- JSON.parse as applied by verifySessionToken, modelled on the exact
serialized shape the issuer emits; any other input is a parse error. -/
def parsePayloadJson (s : List Nat) : Option SessionPayload := do
  let s1 ← dropPre (strBytes "\x7b\"sid\":\"") s
  let (sid, s2) ← readStr s1
  let s3 ← dropPre (strBytes ",\"origin\":\"") s2
  let (origin, s4) ← readStr s3
  let s5 ← dropPre (strBytes ",\"iat\":") s4
  let (iat, s6) ← readNat s5
  let s7 ← dropPre (strBytes ",\"exp\":") s6
  let (expv, s8) ← readNat s7
  let s9 ← dropPre (strBytes "\x7d") s8
  if s9 = [] then some ⟨sid, origin, iat, expv⟩ else none

/-! ## Validity of general JSON text

JSON.parse succeeds exactly on the texts of the ECMA-404 grammar; the
recognizer below implements that grammar (whitespace, objects, arrays,
strings with escapes, numbers without leading zeros, the three literals) so
that the failure of JSON.parse on a decoded payload can be stated
faithfully.  The fuel of the recursive recognizer starts above the input
length, which bounds every possible nesting depth, since each descent into
an object or array first consumes its opening character. -/

/-- JSON insignificant whitespace: space, tab, line feed, carriage
return. -/
def jsonWsCode (c : Nat) : Bool := decide (c = 32 ∨ c = 9 ∨ c = 10 ∨ c = 13)

/-- Skip insignificant whitespace. -/
def skipJsonWs (s : List Nat) : List Nat := s.dropWhile jsonWsCode

/-- Hexadecimal digit of a unicode escape. -/
def jsonHexCode (c : Nat) : Bool :=
  decide ((48 ≤ c ∧ c ≤ 57) ∨ (65 ≤ c ∧ c ≤ 70) ∨ (97 ≤ c ∧ c ≤ 102))

/-- Consume a JSON string after its opening quote: unescaped code units at
or above 0x20 other than the quote and the backslash, the short escapes,
and four-hex-digit unicode escapes, up to the closing quote. -/
def jsonStringRest : List Nat → Option (List Nat)
  | [] => none
  | c :: r =>
    if c = 34 then some r
    else if c = 92 then
      match r with
      | [] => none
      | e :: r2 =>
        if e = 34 ∨ e = 92 ∨ e = 47 ∨ e = 98 ∨ e = 102 ∨ e = 110 ∨ e = 114 ∨ e = 116 then
          jsonStringRest r2
        else if e = 117 then
          match r2 with
          | h1 :: h2 :: h3 :: h4 :: r3 =>
            if jsonHexCode h1 && jsonHexCode h2 && jsonHexCode h3 && jsonHexCode h4 then
              jsonStringRest r3
            else none
          | _ => none
        else none
    else if 32 ≤ c then jsonStringRest r
    else none

/-- Consume one or more decimal digits. -/
def jsonDigits1 (s : List Nat) : Option (List Nat) :=
  let res := spanP isDigitCode s
  if res.1 = [] then none else some res.2

/-- Consume the integer part of a JSON number: a single zero, or a nonzero
digit followed by digits. -/
def jsonInt (s : List Nat) : Option (List Nat) :=
  match s with
  | c :: r =>
    if c = 48 then some r
    else if 49 ≤ c ∧ c ≤ 57 then some (r.dropWhile isDigitCode)
    else none
  | [] => none

/-- Consume an optional fraction part. -/
def jsonFrac (s : List Nat) : Option (List Nat) :=
  match s with
  | 46 :: r => jsonDigits1 r
  | _ => some s

/-- Consume an optional exponent part. -/
def jsonExpPart (s : List Nat) : Option (List Nat) :=
  match s with
  | c :: r =>
    if c = 101 ∨ c = 69 then
      match r with
      | d :: r2 => if d = 43 ∨ d = 45 then jsonDigits1 r2 else jsonDigits1 r
      | [] => none
    else some s
  | [] => some s

/-- Consume a JSON number: optional minus, integer part, optional fraction
and exponent. -/
def jsonNumber (s : List Nat) : Option (List Nat) :=
  let s1 := match s with | 45 :: r => r | _ => s
  do
    let s2 ← jsonInt s1
    let s3 ← jsonFrac s2
    jsonExpPart s3

mutual

/-- Consume one JSON value; the fuel bounds the nesting depth. -/
def jsonValue : Nat → List Nat → Option (List Nat)
  | 0, _ => none
  | fuel + 1, s =>
    match s with
    | [] => none
    | c :: r =>
      if c = 34 then jsonStringRest r
      else if c = 123 then
        match skipJsonWs r with
        | 125 :: r2 => some r2
        | r2 => jsonMembers fuel r2
      else if c = 91 then
        match skipJsonWs r with
        | 93 :: r2 => some r2
        | r2 => jsonElements fuel r2
      else if c = 116 then dropPre (strBytes "rue") r
      else if c = 102 then dropPre (strBytes "alse") r
      else if c = 110 then dropPre (strBytes "ull") r
      else jsonNumber s

/-- Consume the members of an object after its opening brace and leading
whitespace, up to the closing brace. -/
def jsonMembers : Nat → List Nat → Option (List Nat)
  | 0, _ => none
  | fuel + 1, s =>
    match s with
    | 34 :: r => do
      let r1 ← jsonStringRest r
      match skipJsonWs r1 with
      | 58 :: r3 => do
        let r4 ← jsonValue fuel (skipJsonWs r3)
        match skipJsonWs r4 with
        | 44 :: r6 => jsonMembers fuel (skipJsonWs r6)
        | 125 :: r6 => some r6
        | _ => none
      | _ => none
    | _ => none

/-- Consume the elements of an array after its opening bracket and leading
whitespace, up to the closing bracket. -/
def jsonElements : Nat → List Nat → Option (List Nat)
  | 0, _ => none
  | fuel + 1, s => do
    let r ← jsonValue fuel s
    match skipJsonWs r with
    | 44 :: r2 => jsonElements fuel (skipJsonWs r2)
    | 93 :: r2 => some r2
    | _ => none

end

/-- Acceptance of a whole text by JSON.parse: whitespace, one value,
whitespace, end of input. -/
def jsonTextOk (s : List Nat) : Bool :=
  match jsonValue (s.length + 1) (skipJsonWs s) with
  | some r => decide (skipJsonWs r = [])
  | none => false

/-! ## Token split -/

/-- JavaScript String.prototype.split on the dot character (code 46). -/
def splitOnDot : List Nat → List (List Nat)
  | [] => [[]]
  | c :: rest =>
    if c = 46 then [] :: splitOnDot rest
    else
      match splitOnDot rest with
      | [] => [[c]]
      | g :: gs => (c :: g) :: gs

/-! ## Verifier (verifySessionToken of supabase/functions/_shared/auth.ts) -/

/-- Result of verifySessionToken: valid with a payload, or invalid with the
error string of the source. -/
inductive VerifyResult where
  | ok (payload : SessionPayload)
  | err (reason : String)
deriving DecidableEq

/-- Truthy-origin mismatch test of the verifier: a null or empty
requestOrigin skips the check, otherwise the payload origin must equal it. -/
def originMismatch (requestOrigin : Option (List Nat)) (payloadOrigin : List Nat) : Bool :=
  match requestOrigin with
  | none => false
  | some ro => decide (ro ≠ []) && decide (payloadOrigin ≠ ro)

/-- Shape of the shared-secret message authentication code: HMAC-SHA256 over
the TextEncoder bytes of the message, abstracted as a deterministic function
from secret and message to digest bytes. -/
def MacFun : Type := List Nat → List Nat → List Nat

/-- Expiry, origin and signature checks of the verifier, performed in that
order once the payload has been decoded and parsed (lines 85-120 of
_shared/auth.ts). -/
def verifyChecks (mac : MacFun) (secret payloadString : List Nat)
    (payload : SessionPayload) (base64Signature : List Nat)
    (requestOrigin : Option (List Nat)) (now : Nat) : VerifyResult :=
  if payload.exp < now then .err "Session expired"
  else if originMismatch requestOrigin payload.origin then .err "Origin mismatch"
  else
    match base64urlDecode base64Signature with
    | none => .err "Token verification failed"
    | some signature =>
      if signature = mac secret payloadString then .ok payload
      else .err "Invalid signature"

/-- JSON.parse step of the verifier; a parse exception lands in the catch
branch. -/
def verifyParsed (mac : MacFun) (secret payloadString base64Signature : List Nat)
    (requestOrigin : Option (List Nat)) (now : Nat) : VerifyResult :=
  match parsePayloadJson payloadString with
  | none => .err "Token verification failed"
  | some payload =>
    verifyChecks mac secret payloadString payload base64Signature requestOrigin now

/-- Segment-decoding step of the verifier on the two dot segments; an atob
exception lands in the catch branch. -/
def verifyParts (mac : MacFun) (secret base64Payload base64Signature : List Nat)
    (requestOrigin : Option (List Nat)) (now : Nat) : VerifyResult :=
  match base64urlDecode base64Payload with
  | none => .err "Token verification failed"
  | some payloadString =>
    verifyParsed mac secret payloadString base64Signature requestOrigin now

/-- The verifier of supabase/functions/_shared/auth.ts lines 59-126: empty
token check, split into exactly two dot segments, base64url-decode and parse
the payload, expiry check, truthy-origin check, base64url-decode the
signature and compare it against the recomputed digest; atob and JSON
exceptions land in the catch branch.  The sequential steps of the source
are the stage functions above. -/
def verifySessionToken (mac : MacFun) (secret : List Nat)
    (token : List Nat) (requestOrigin : Option (List Nat)) (now : Nat) : VerifyResult :=
  if token = [] then .err "No session token provided"
  else
    match splitOnDot token with
    | [base64Payload, base64Signature] =>
      verifyParts mac secret base64Payload base64Signature requestOrigin now
    | _ => .err "Invalid token format"

/-! ## Issuer (create-session edge function) -/

/-- Token creation of the create-session function lines 71-102: serialize
the payload with iat now and exp now plus 24 hours, sign it, base64url both
and join with a dot.  The btoa call fails on a code unit outside Latin-1,
surfacing as none (the catch branch of the handler). -/
def createSessionToken (mac : MacFun) (secret sessionId origin : List Nat)
    (now : Nat) : Option (List Nat) :=
  let payload : SessionPayload := ⟨sessionId, origin, now, now + 24 * 60 * 60 * 1000⟩
  let payloadString := serializePayload payload
  let signature := mac secret payloadString
  if payloadString.all (fun c => c < 256) then
    some (b64EncodeBytes payloadString ++ 46 :: b64EncodeBytes signature)
  else none

/-- Session identifier generated by the create-session handler: decimal
Date.now() milliseconds, a dash, and the first eight characters of a
version-4 random UUID (lowercase hex, supplied as a parameter). -/
def genSessionId (now : Nat) (suffix : List Nat) : List Nat :=
  natToDigits now ++ 45 :: suffix

/-! ## Origin allow-list (isAllowedOrigin, duplicated in _shared/auth.ts and
the create-session function) -/

/-- Character class of the regex bracket [\w-]: ASCII letters, digits,
underscore, dash. -/
def isWordDash (c : Nat) : Bool :=
  decide ((65 ≤ c ∧ c ≤ 90) ∨ (97 ≤ c ∧ c ≤ 122) ∨ (48 ≤ c ∧ c ≤ 57) ∨ c = 95 ∨ c = 45)

/-- Consume an expected pattern from the back. -/
def dropSuf (suf s : List Nat) : Option (List Nat) :=
  (dropPre suf.reverse s.reverse).map List.reverse

/-- Test of one preview-domain regex of the source,
anchored https scheme, one or more word-or-dash characters, then the literal
domain suffix; equivalent because the character class excludes the dot. -/
def matchesDom (o : List Nat) (suf : String) : Bool :=
  match dropPre (strBytes "https://") o with
  | none => false
  | some rest =>
    match dropSuf (strBytes suf) rest with
    | none => false
    | some mid => decide (mid ≠ []) && mid.all isWordDash

/-- The origin allow-list check: null and empty origins are refused, three
exact origins are accepted, then the two Lovable preview-domain patterns. -/
def isAllowedOrigin (origin : Option (List Nat)) : Bool :=
  match origin with
  | none => false
  | some o =>
    if o = [] then false
    else if o = strBytes "https://handwrite-to-taste.lovable.app"
        ∨ o = strBytes "http://localhost:5173"
        ∨ o = strBytes "http://localhost:8080" then true
    else matchesDom o ".lovable.app" || matchesDom o ".lovableproject.com"

/-! ## Sliding-window rate limiter (checkRateLimit, instantiated once per
endpoint with its own map) -/

/-- Per-endpoint rate-limit map from client IP to recorded timestamps. -/
def RateState : Type := String → List Nat

/-- Initial (cold-start) state of a rate-limit map. -/
def emptyRateState : RateState := fun _ => []

/-- The checkRateLimit function shared by the endpoints: keep only the
timestamps of the trailing window, reject without recording when the
retained count has reached the cap, otherwise record now and accept. -/
def checkRateLimit (windowMs maxPerWindow : Nat) (st : RateState) (ip : String)
    (now : Nat) : Bool × RateState :=
  let timestamps := st ip
  let recent := timestamps.filter (fun t => now - t < windowMs)
  if maxPerWindow ≤ recent.length then (false, st)
  else (true, fun k => if k = ip then recent ++ [now] else st k)

/-- Window of the create-session limiter (one hour). -/
def SESSION_RATE_LIMIT_WINDOW_MS : Nat := 60 * 60 * 1000

/-- Cap of the create-session limiter (10 issuances per window per IP). -/
def MAX_SESSIONS_PER_WINDOW : Nat := 10

/-- Window of the business-endpoint limiters (one hour). -/
def RATE_LIMIT_WINDOW_MS : Nat := 60 * 60 * 1000

/-- Cap of the business-endpoint limiters (20 requests per window per IP). -/
def MAX_REQUESTS_PER_WINDOW : Nat := 20

/-- The create-session instantiation of the limiter. -/
def checkRateLimitSession (st : RateState) (ip : String) (now : Nat) : Bool × RateState :=
  checkRateLimit SESSION_RATE_LIMIT_WINDOW_MS MAX_SESSIONS_PER_WINDOW st ip now

/-- The analyze-menu / analyze-product instantiation of the limiter. -/
def checkRateLimitApi (st : RateState) (ip : String) (now : Nat) : Bool × RateState :=
  checkRateLimit RATE_LIMIT_WINDOW_MS MAX_REQUESTS_PER_WINDOW st ip now

/-! ## The create-session request handler -/

/-- Responses of the create-session handler: 429 rate limited, 403 invalid
origin, 200 success with sessionId and token, 500 on a thrown error. -/
inductive IssueResponse where
  | rateLimited
  | invalidOrigin
  | success (sessionId token : List Nat)
  | serverError
deriving DecidableEq

/-- The POST path of the create-session handler: rate limit by client IP
first, then the origin allow-list, then generate the sessionId and the
signed token.  The random UUID head is a parameter. -/
def handleCreateSession (mac : MacFun) (secret : List Nat) (st : RateState)
    (origin : Option (List Nat)) (ip : String) (now : Nat) (suffix : List Nat) :
    IssueResponse × RateState :=
  let rl := checkRateLimitSession st ip now
  if rl.1 = false then (.rateLimited, rl.2)
  else if isAllowedOrigin origin = false then (.invalidOrigin, rl.2)
  else
    match origin with
    | none => (.invalidOrigin, rl.2)
    | some o =>
      let sessionId := genSessionId now suffix
      match createSessionToken mac secret sessionId o now with
      | none => (.serverError, rl.2)
      | some token => (.success sessionId token, rl.2)

/-! ## The toggle-favorite request handler -/

/-- Stored analysis row, with the columns the handler touches. -/
structure StoredRecord where
  id : List Nat
  session_id : List Nat
  is_favorite : Bool
deriving DecidableEq

/-- Request body of toggle-favorite; isFavorite is none when the field is
absent or not a boolean. -/
structure ToggleBody where
  id : List Nat
  type : List Nat
  isFavorite : Option Bool
  sessionId : List Nat
deriving DecidableEq

/-- Responses of the toggle-favorite handler, by status and message. -/
inductive ToggleResponse where
  | authRequired
  | sessionExpired
  | missingParams
  | invalidType
  | notFound
  | notAuthorized
  | success (isFavorite : Bool)
deriving DecidableEq

/-- The POST path of the toggle-favorite handler: session-token header
present and verified, required body fields, type check, lookup of the row by
id (the lookup result is a parameter standing for the database), ownership
comparison of the stored session_id against the body sessionId, then the
favorite update.  Returns the response and the row as left in the
database. -/
def toggleFavorite (mac : MacFun) (secret : List Nat)
    (sessionTokenHeader : Option (List Nat)) (origin : Option (List Nat)) (now : Nat)
    (body : ToggleBody) (stored : Option StoredRecord) :
    ToggleResponse × Option StoredRecord :=
  match sessionTokenHeader with
  | none => (.authRequired, stored)
  | some tok =>
    if tok = [] then (.authRequired, stored)
    else
      match verifySessionToken mac secret tok origin now with
      | .err _ => (.sessionExpired, stored)
      | .ok _ =>
        if body.id = [] ∨ body.type = [] ∨ body.isFavorite = none ∨ body.sessionId = [] then
          (.missingParams, stored)
        else if body.type ≠ strBytes "menu" ∧ body.type ≠ strBytes "product" then
          (.invalidType, stored)
        else
          match stored with
          | none => (.notFound, none)
          | some r =>
            if r.session_id ≠ body.sessionId then (.notAuthorized, some r)
            else
              let fav := body.isFavorite.getD false
              (.success fav, some { r with is_favorite := fav })

/-! ## Client session manager (src/hooks/useSessionToken.ts) -/

/-- The ClientSessionRecord held in sessionStorage and sessionDataRef. -/
structure SessionData where
  sessionId : List Nat
  token : List Nat
  expiresAt : Nat
deriving DecidableEq

/-- Client-side state: the single session record, or none. -/
structure ClientState where
  record : Option SessionData
deriving DecidableEq

/-- Freshness buffer of the session manager (five minutes). -/
def EXPIRY_BUFFER_MS : Nat := 5 * 60 * 1000

/-- The ensureValidSession operation of useSessionToken: a record whose
expiresAt clears the buffer is returned as-is; otherwise the record is
cleared and the issuer is invoked (its outcome is a parameter: some new
record on success, none on any failure), storing the new record on success
and returning null on failure. -/
def ensureValidSession (st : ClientState) (now : Nat)
    (issuerResult : Option SessionData) : Option (List Nat) × ClientState :=
  match st.record with
  | some s =>
    if now + EXPIRY_BUFFER_MS < s.expiresAt then (some s.token, st)
    else
      match issuerResult with
      | some ns => (some ns.token, ⟨some ns⟩)
      | none => (none, ⟨none⟩)
  | none =>
    match issuerResult with
    | some ns => (some ns.token, ⟨some ns⟩)
    | none => (none, ⟨none⟩)

/-! ## The sessionId validation of the save endpoint -/

/-- Acceptance of a sessionId by validateInput of the save endpoint (the
save-to-Drive-and-Sheets edge function): a nonempty string of at most 100
characters matching the anchored character class of letters, digits,
underscore and dash. -/
def validateSessionIdOk (s : List Nat) : Bool :=
  decide (s ≠ []) && decide (s.length ≤ 100) && s.all isWordDash

/-- Lowercase-hex character test, the alphabet of a version-4 UUID body. -/
def isLowerHexCode (c : Nat) : Bool := decide ((48 ≤ c ∧ c ≤ 57) ∨ (97 ≤ c ∧ c ≤ 102))

/-! ## Round-trip facts about the base64url coder -/

/-- Decoding inverts the alphabet map on every index. -/
theorem b64uVal_b64uChar : ∀ n < 64, b64uVal (b64uChar n) = some n := by decide

/-- Every alphabet character is at least the dash, hence not ASCII
whitespace. -/
theorem b64uChar_not_ws (n : Nat) : isB64Ws (b64uChar n) = false := by
  unfold b64uChar isB64Ws
  split_ifs <;> simp <;> omega

/-- Encoded segments contain no ASCII whitespace. -/
theorem mem_b64Encode_not_ws (bs : List Nat) :
    ∀ c ∈ b64EncodeBytes bs, isB64Ws c = false := by
  induction bs using b64EncodeBytes.induct with
  | case1 => intro c hc; simp [b64EncodeBytes] at hc
  | case2 a =>
    intro c hc
    simp [b64EncodeBytes] at hc
    rcases hc with rfl | rfl <;> exact b64uChar_not_ws _
  | case3 a b =>
    intro c hc
    simp [b64EncodeBytes] at hc
    rcases hc with rfl | rfl | rfl <;> exact b64uChar_not_ws _
  | case4 a b c rest ih =>
    intro x hx
    simp [b64EncodeBytes, encode3] at hx
    rcases hx with rfl | rfl | rfl | rfl | hx
    · exact b64uChar_not_ws _
    · exact b64uChar_not_ws _
    · exact b64uChar_not_ws _
    · exact b64uChar_not_ws _
    · exact ih x hx

/-- The padded form of a segment always has length divisible by 4. -/
theorem padTo4_length_mod (s : List Nat) : (padTo4 s).length % 4 = 0 := by
  unfold padTo4
  simp only [List.length_append, List.length_replicate]
  omega

/-- No alphabet character is the dot or the padding sign. -/
theorem b64uChar_ne (n : Nat) : b64uChar n ≠ 46 ∧ b64uChar n ≠ 61 := by
  unfold b64uChar
  split_ifs <;> omega

/-- Encoded segments contain neither the dot nor the padding sign. -/
theorem mem_b64Encode_ne (bs : List Nat) : ∀ c ∈ b64EncodeBytes bs, c ≠ 46 ∧ c ≠ 61 := by
  induction bs using b64EncodeBytes.induct with
  | case1 => intro c hc; simp [b64EncodeBytes] at hc
  | case2 a =>
    intro c hc
    simp [b64EncodeBytes] at hc
    rcases hc with rfl | rfl <;> exact b64uChar_ne _
  | case3 a b =>
    intro c hc
    simp [b64EncodeBytes] at hc
    rcases hc with rfl | rfl | rfl <;> exact b64uChar_ne _
  | case4 a b c rest ih =>
    intro x hx
    simp [b64EncodeBytes, encode3] at hx
    rcases hx with rfl | rfl | rfl | rfl | hx
    · exact b64uChar_ne _
    · exact b64uChar_ne _
    · exact b64uChar_ne _
    · exact b64uChar_ne _
    · exact ih x hx

/-- Encoded segments never have length 1 modulo 4. -/
theorem b64Encode_length_mod (bs : List Nat) : (b64EncodeBytes bs).length % 4 ≠ 1 := by
  induction bs using b64EncodeBytes.induct with
  | case1 => simp [b64EncodeBytes]
  | case2 a => simp [b64EncodeBytes]
  | case3 a b => simp [b64EncodeBytes]
  | case4 a b c rest ih => simp [b64EncodeBytes, encode3] at ih ⊢; omega

/-- Unpadding leaves a sequence alone when its last element is not the
padding sign. -/
theorem dropPadRev_of_head_ne (l : List Nat) (h : ∀ c, l.head? = some c → c ≠ 61) :
    dropPadRev l = l := by
  rcases l with _ | ⟨c, t⟩
  · rfl
  · have hc : c ≠ 61 := h c rfl
    rcases t with _ | ⟨d, t'⟩ <;> simp [dropPadRev, hc]

/-- Padding then unpadding is the identity away from the padding sign. -/
theorem dropPad_padTo4 (s : List Nat) (h61 : ∀ c ∈ s, c ≠ 61) (hlen : s.length % 4 ≠ 1) :
    dropPad (padTo4 s) = s := by
  unfold dropPad padTo4
  have hmod : s.length % 4 = 0 ∨ s.length % 4 = 2 ∨ s.length % 4 = 3 := by omega
  have hhead : ∀ c, s.reverse.head? = some c → c ≠ 61 := by
    intro c hc
    apply h61
    have : c ∈ s.reverse := List.mem_of_mem_head? hc
    simpa using this
  rcases hmod with h | h | h
  · rw [h]
    simp only [Nat.sub_zero, Nat.mod_self, List.replicate_zero, List.append_nil]
    rw [dropPadRev_of_head_ne _ hhead, List.reverse_reverse]
  · rw [h]
    norm_num
    simp [dropPadRev]
  · rw [h]
    norm_num
    have hs_ne : s ≠ [] := by
      intro hnil; rw [hnil] at h; simp at h
    rcases hs : s.reverse with _ | ⟨c, t⟩
    · exact absurd (by simpa using congrArg List.reverse hs) hs_ne
    · have hc : c ≠ 61 := hhead c (by rw [hs]; rfl)
      have hd : dropPadRev (61 :: c :: t) = c :: t := by simp [dropPadRev, hc]
      rw [hd, ← hs, List.reverse_reverse]

/-- Decoding inverts encoding on byte sequences. -/
theorem b64Decode_b64Encode : ∀ bs : List Nat, (∀ b ∈ bs, b < 256) →
    b64DecodeChars (b64EncodeBytes bs) = some bs := by
  intro bs
  induction bs using b64EncodeBytes.induct with
  | case1 => intro _; rfl
  | case2 a =>
    intro h
    have ha : a < 256 := h a (by simp)
    rw [show b64DecodeChars (b64EncodeBytes [a]) = (do
        let v1 ← b64uVal (b64uChar (a / 4))
        let v2 ← b64uVal (b64uChar (a % 4 * 16))
        some [v1 * 4 + v2 / 16]) from rfl]
    rw [b64uVal_b64uChar _ (by omega), b64uVal_b64uChar _ (by omega)]
    simp only [Option.bind_eq_bind, Option.some_bind, Option.some.injEq, List.cons.injEq,
      and_true]
    omega
  | case3 a b =>
    intro h
    have ha : a < 256 := h a (by simp)
    have hb : b < 256 := h b (by simp)
    rw [show b64DecodeChars (b64EncodeBytes [a, b]) = (do
        let v1 ← b64uVal (b64uChar (a / 4))
        let v2 ← b64uVal (b64uChar (a % 4 * 16 + b / 16))
        let v3 ← b64uVal (b64uChar (b % 16 * 4))
        some [v1 * 4 + v2 / 16, v2 % 16 * 16 + v3 / 4]) from rfl]
    rw [b64uVal_b64uChar _ (by omega), b64uVal_b64uChar _ (by omega),
      b64uVal_b64uChar _ (by omega)]
    simp only [Option.bind_eq_bind, Option.some_bind, Option.some.injEq, List.cons.injEq,
      and_true]
    constructor <;> omega
  | case4 a b c rest ih =>
    intro h
    have ha : a < 256 := h a (by simp)
    have hb : b < 256 := h b (by simp)
    have hc : c < 256 := h c (by simp)
    have hrest : ∀ x ∈ rest, x < 256 := fun x hx => h x (by simp [hx])
    rw [show b64DecodeChars (b64EncodeBytes (a :: b :: c :: rest)) = (do
        let v1 ← b64uVal (b64uChar (a / 4))
        let v2 ← b64uVal (b64uChar (a % 4 * 16 + b / 16))
        let v3 ← b64uVal (b64uChar (b % 16 * 4 + c / 64))
        let v4 ← b64uVal (b64uChar (c % 64))
        let tail ← b64DecodeChars (b64EncodeBytes rest)
        some ((v1 * 4 + v2 / 16) :: (v2 % 16 * 16 + v3 / 4) :: (v3 % 4 * 64 + v4) :: tail))
      from rfl]
    rw [b64uVal_b64uChar _ (by omega), b64uVal_b64uChar _ (by omega),
      b64uVal_b64uChar _ (by omega), b64uVal_b64uChar _ (by omega), ih hrest]
    simp only [Option.bind_eq_bind, Option.some_bind, Option.some.injEq, List.cons.injEq]
    exact ⟨by omega, by omega, by omega, trivial⟩

/-- The verifier's segment decoding inverts the issuer's segment encoding. -/
theorem base64urlDecode_b64Encode (bs : List Nat) (h : ∀ b ∈ bs, b < 256) :
    base64urlDecode (b64EncodeBytes bs) = some bs := by
  unfold base64urlDecode atobForgiving
  have hfil : (padTo4 (b64EncodeBytes bs)).filter (fun c => !isB64Ws c) =
      padTo4 (b64EncodeBytes bs) := by
    rw [List.filter_eq_self]
    intro a ha
    unfold padTo4 at ha
    rw [List.mem_append] at ha
    rcases ha with ha | ha
    · simp [mem_b64Encode_not_ws bs a ha]
    · have : a = 61 := List.eq_of_mem_replicate ha
      subst this
      rfl
  simp only []
  rw [hfil, if_pos (padTo4_length_mod _),
    dropPad_padTo4 _ (fun c hc => (mem_b64Encode_ne bs c hc).2) (b64Encode_length_mod bs)]
  exact b64Decode_b64Encode bs h

/-! ## Facts about the token split -/

/-- A dot-free sequence splits into itself alone. -/
theorem splitOnDot_no_dot (s : List Nat) (h : ∀ c ∈ s, c ≠ 46) : splitOnDot s = [s] := by
  induction s with
  | nil => rfl
  | cons c r ih =>
    have hc : c ≠ 46 := h c (by simp)
    have hr : splitOnDot r = [r] := ih (fun x hx => h x (by simp [hx]))
    simp [splitOnDot, hc, hr]

/-- Splitting around a dot after a dot-free front segment. -/
theorem splitOnDot_append (xs ys : List Nat) (h : ∀ c ∈ xs, c ≠ 46) :
    splitOnDot (xs ++ 46 :: ys) = xs :: splitOnDot ys := by
  induction xs with
  | nil => simp [splitOnDot]
  | cons c r ih =>
    have hc : c ≠ 46 := h c (by simp)
    have hr := ih (fun x hx => h x (by simp [hx]))
    rw [List.cons_append]
    simp only [splitOnDot, hc, if_false, ite_false, hr]

/-! ## Facts about the parsing helpers -/

/-- Consuming a pattern from a sequence that starts with it. -/
theorem dropPre_append (pat r : List Nat) : dropPre pat (pat ++ r) = some r := by
  induction pat with
  | nil => rfl
  | cons p ps ih => simp [dropPre, ih]

/-- A successful pattern consumption recovers the decomposition. -/
theorem dropPre_eq_some (pat s r : List Nat) (h : dropPre pat s = some r) :
    s = pat ++ r := by
  induction pat generalizing s with
  | nil => simpa [dropPre] using h
  | cons p ps ih =>
    rcases s with _ | ⟨c, cs⟩
    · simp [dropPre] at h
    · by_cases hc : c = p
      · subst hc
        simp only [dropPre, if_pos rfl] at h
        simpa using ih cs h
      · simp [dropPre, hc] at h

/-- Span of a satisfying front segment followed by a non-satisfying head. -/
theorem spanP_append (p : Nat → Bool) (xs ys : List Nat) (hx : ∀ x ∈ xs, p x = true)
    (hy : ∀ c, ys.head? = some c → p c = false) : spanP p (xs ++ ys) = (xs, ys) := by
  induction xs with
  | nil =>
    rcases ys with _ | ⟨c, t⟩
    · rfl
    · have := hy c rfl
      simp [spanP, this]
  | cons x r ih =>
    have hpx : p x = true := hx x (by simp)
    have hr := ih (fun z hz => hx z (by simp [hz]))
    simp [spanP, hpx, hr]

/-- Reading a quote-free string body up to its closing quote. -/
theorem readStr_append (xs r : List Nat) (h : ∀ c ∈ xs, c ≠ 34) :
    readStr (xs ++ 34 :: r) = some (xs, r) := by
  unfold readStr
  rw [spanP_append _ xs (34 :: r) (fun x hx => by simpa using h x hx)
    (fun c hc => by simp at hc; simp [hc])]

/-! ## Facts about the decimal rendering -/

/-- Unfolding of the digit expansion on a small number. -/
theorem natToDigitsAux_lt (n : Nat) (acc : List Nat) (h : n < 10) :
    natToDigitsAux n acc = (48 + n) :: acc := by
  rw [natToDigitsAux]
  rw [dif_pos h]

/-- Unfolding of the digit expansion on a large number. -/
theorem natToDigitsAux_ge (n : Nat) (acc : List Nat) (h : ¬ n < 10) :
    natToDigitsAux n acc = natToDigitsAux (n / 10) ((48 + n % 10) :: acc) := by
  conv_lhs => rw [natToDigitsAux]
  rw [dif_neg h]

/-- The accumulator of the digit expansion is an append. -/
theorem natToDigitsAux_append (n : Nat) : ∀ acc, natToDigitsAux n acc = natToDigitsAux n [] ++ acc := by
  induction n using Nat.strong_induction_on with
  | _ n ih =>
    intro acc
    by_cases h : n < 10
    · rw [natToDigitsAux_lt _ _ h, natToDigitsAux_lt _ _ h]
      simp
    · rw [natToDigitsAux_ge _ _ h, natToDigitsAux_ge _ _ h,
        ih (n / 10) (Nat.div_lt_self (by omega) (by omega)) ((48 + n % 10) :: acc),
        ih (n / 10) (Nat.div_lt_self (by omega) (by omega)) ((48 + n % 10) :: [])]
      simp

/-- The fuel-driven digit expansion agrees with the accumulator form as
soon as the fuel dominates the number. -/
theorem natToDigitsFuel_eq (fuel : Nat) : ∀ n, n ≤ fuel → ∀ acc,
    natToDigitsFuel fuel n acc = natToDigitsAux n acc := by
  induction fuel with
  | zero =>
    intro n hn acc
    have : n = 0 := by omega
    subst this
    rw [natToDigitsFuel, natToDigitsAux_lt _ _ (by omega)]
  | succ fuel ih =>
    intro n hn acc
    by_cases h : n < 10
    · rw [natToDigitsFuel, if_pos h, natToDigitsAux_lt _ _ h]
    · have hd : n / 10 ≤ fuel := by
        have : n / 10 < n := Nat.div_lt_self (by omega) (by omega)
        omega
      rw [natToDigitsFuel, if_neg h, ih (n / 10) hd _, natToDigitsAux_ge _ _ h]

/-- The digit expansion in accumulator form. -/
theorem natToDigits_eq_aux (n : Nat) : natToDigits n = natToDigitsAux n [] :=
  natToDigitsFuel_eq n n (Nat.le_refl n) []

/-- Digit expansion of a small number. -/
theorem natToDigits_lt_10 (n : Nat) (h : n < 10) : natToDigits n = [48 + n] := by
  rw [natToDigits_eq_aux, natToDigitsAux_lt _ _ h]

/-- Digit expansion of a large number peels the last digit. -/
theorem natToDigits_ge_10 (n : Nat) (h : ¬ n < 10) :
    natToDigits n = natToDigits (n / 10) ++ [48 + n % 10] := by
  rw [natToDigits_eq_aux, natToDigitsAux_ge _ _ h, natToDigitsAux_append,
    natToDigits_eq_aux]

/-- Every code of a digit expansion is a decimal digit code. -/
theorem natToDigits_digits (n : Nat) : ∀ c ∈ natToDigits n, 48 ≤ c ∧ c ≤ 57 := by
  induction n using Nat.strong_induction_on with
  | _ n ih =>
    by_cases h : n < 10
    · rw [natToDigits_lt_10 n h]
      intro c hc
      simp at hc
      omega
    · rw [natToDigits_ge_10 n h]
      intro c hc
      rw [List.mem_append] at hc
      rcases hc with hc | hc
      · exact ih (n / 10) (Nat.div_lt_self (by omega) (by omega)) c hc
      · simp at hc
        omega

/-- A digit expansion is nonempty. -/
theorem natToDigits_ne_nil (n : Nat) : natToDigits n ≠ [] := by
  by_cases h : n < 10
  · rw [natToDigits_lt_10 n h]; simp
  · rw [natToDigits_ge_10 n h]; simp

/-- Folding one more digit into a value. -/
theorem digitsVal_append_single (ds : List Nat) (c : Nat) :
    digitsVal (ds ++ [c]) = digitsVal ds * 10 + (c - 48) := by
  unfold digitsVal
  rw [List.foldl_append]
  rfl

/-- The digit value inverts the digit expansion. -/
theorem digitsVal_natToDigits (n : Nat) : digitsVal (natToDigits n) = n := by
  induction n using Nat.strong_induction_on with
  | _ n ih =>
    by_cases h : n < 10
    · rw [natToDigits_lt_10 n h]
      unfold digitsVal
      simp
    · rw [natToDigits_ge_10 n h, digitsVal_append_single,
        ih (n / 10) (Nat.div_lt_self (by omega) (by omega))]
      omega

/-- Bound on the digit count: below ten to the k, at most k digits. -/
theorem natToDigits_length_le (k : Nat) : ∀ n, 0 < k → n < 10 ^ k →
    (natToDigits n).length ≤ k := by
  induction k with
  | zero => intro n h; omega
  | succ k ih =>
    intro n _ hn
    by_cases h : n < 10
    · rw [natToDigits_lt_10 n h]
      simp
    · rw [natToDigits_ge_10 n h]
      have hk : 0 < k := by
        by_contra hk0
        have : k = 0 := by omega
        subst this
        simp at hn
        omega
      have hdiv : n / 10 < 10 ^ k := by
        rw [Nat.div_lt_iff_lt_mul (by omega)]
        calc n < 10 ^ (k + 1) := hn
        _ = 10 ^ k * 10 := by ring
      have := ih (n / 10) hk hdiv
      simp only [List.length_append, List.length_cons, List.length_nil]
      omega

/-- Reading back a rendered number followed by a non-digit remainder. -/
theorem readNat_append (n : Nat) (r : List Nat)
    (hr : ∀ c, r.head? = some c → isDigitCode c = false) :
    readNat (natToDigits n ++ r) = some (n, r) := by
  unfold readNat
  rw [spanP_append isDigitCode (natToDigits n) r
    (fun x hx => by
      have := natToDigits_digits n x hx
      simp [isDigitCode]
      omega) hr]
  simp [natToDigits_ne_nil n, digitsVal_natToDigits n]

/-! ## Round trip of the payload serializer and reader -/

/-- Reading back a serialized payload whose strings are quote-free. -/
theorem parsePayloadJson_serializePayload (p : SessionPayload)
    (hsid : ∀ c ∈ p.sid, c ≠ 34) (hor : ∀ c ∈ p.origin, c ≠ 34) :
    parsePayloadJson (serializePayload p) = some p := by
  have e2 : strBytes "\",\"origin\":\"" = 34 :: strBytes ",\"origin\":\"" := rfl
  have e3 : strBytes "\",\"iat\":" = 34 :: strBytes ",\"iat\":" := rfl
  have hIat : ∀ c : Nat,
      (strBytes ",\"exp\":" ++ (natToDigits p.exp ++ strBytes "\x7d")).head? = some c →
      isDigitCode c = false := by
    intro c hc
    have h44 : (strBytes ",\"exp\":" ++ (natToDigits p.exp ++ strBytes "\x7d")).head? =
        some 44 := rfl
    rw [h44] at hc
    have : c = 44 := by simpa using hc.symm
    subst this
    rfl
  have hExp : ∀ c : Nat, (strBytes "\x7d" : List Nat).head? = some c →
      isDigitCode c = false := by
    intro c hc
    have h125 : (strBytes "\x7d" : List Nat).head? = some 125 := rfl
    rw [h125] at hc
    have : c = 125 := by simpa using hc.symm
    subst this
    rfl
  have e5 : dropPre (strBytes "\x7d") (strBytes "\x7d") = some [] := rfl
  unfold serializePayload
  rw [e2, e3]
  unfold parsePayloadJson
  simp only [List.append_assoc, List.cons_append]
  rw [dropPre_append]
  simp only [Option.bind_eq_bind, Option.some_bind]
  rw [readStr_append _ _ hsid]
  simp only [Option.bind_eq_bind, Option.some_bind]
  rw [dropPre_append]
  simp only [Option.bind_eq_bind, Option.some_bind]
  rw [readStr_append _ _ hor]
  simp only [Option.bind_eq_bind, Option.some_bind]
  rw [dropPre_append]
  simp only [Option.bind_eq_bind, Option.some_bind]
  rw [readNat_append _ _ hIat]
  simp only [Option.bind_eq_bind, Option.some_bind]
  rw [dropPre_append]
  simp only [Option.bind_eq_bind, Option.some_bind]
  rw [readNat_append _ _ hExp]
  simp only [Option.bind_eq_bind, Option.some_bind]
  rw [e5]
  simp only [Option.bind_eq_bind, Option.some_bind]
  rfl

/-! ## Evaluation of the verifier on well-formed tokens -/

/-- Serialized payloads of Latin-1 fields are Latin-1. -/
theorem serializePayload_lt256 (p : SessionPayload) (hsid : ∀ c ∈ p.sid, c < 256)
    (hor : ∀ c ∈ p.origin, c < 256) : ∀ c ∈ serializePayload p, c < 256 := by
  simp only [serializePayload, List.forall_mem_append]
  refine ⟨⟨⟨⟨⟨⟨⟨⟨?_, ?_⟩, ?_⟩, ?_⟩, ?_⟩, ?_⟩, ?_⟩, ?_⟩, ?_⟩
  · decide
  · exact hsid
  · decide
  · exact hor
  · decide
  · intro c hc
    have := natToDigits_digits _ c hc
    omega
  · decide
  · intro c hc
    have := natToDigits_digits _ c hc
    omega
  · decide

/-- The decode-and-parse stages of the verifier recover a serialized
payload whose fields are Latin-1 and quote-free. -/
theorem verifyParts_built (mac : MacFun) (secret : List Nat) (p : SessionPayload)
    (S : List Nat) (ro : Option (List Nat)) (now : Nat)
    (hsid256 : ∀ c ∈ p.sid, c < 256) (hsidq : ∀ c ∈ p.sid, c ≠ 34)
    (hor256 : ∀ c ∈ p.origin, c < 256) (horq : ∀ c ∈ p.origin, c ≠ 34) :
    verifyParts mac secret (b64EncodeBytes (serializePayload p)) S ro now =
      verifyChecks mac secret (serializePayload p) p S ro now := by
  unfold verifyParts
  rw [base64urlDecode_b64Encode _ (serializePayload_lt256 p hsid256 hor256)]
  show verifyParsed mac secret (serializePayload p) S ro now = _
  unfold verifyParsed
  rw [parsePayloadJson_serializePayload p hsidq horq]

/-- The verifier on a token built from an encoded payload and an arbitrary
dot-free signature segment reaches the sequential checks stage. -/
theorem verifySessionToken_built (mac : MacFun) (secret : List Nat) (p : SessionPayload)
    (S : List Nat) (ro : Option (List Nat)) (now : Nat)
    (hsid256 : ∀ c ∈ p.sid, c < 256) (hsidq : ∀ c ∈ p.sid, c ≠ 34)
    (hor256 : ∀ c ∈ p.origin, c < 256) (horq : ∀ c ∈ p.origin, c ≠ 34)
    (hS46 : ∀ c ∈ S, c ≠ 46) :
    verifySessionToken mac secret (b64EncodeBytes (serializePayload p) ++ 46 :: S) ro now =
      verifyChecks mac secret (serializePayload p) p S ro now := by
  unfold verifySessionToken
  have hne : b64EncodeBytes (serializePayload p) ++ 46 :: S ≠ [] := by simp
  rw [if_neg hne, splitOnDot_append _ _ (fun c hc => (mem_b64Encode_ne _ c hc).1),
    splitOnDot_no_dot S hS46]
  exact verifyParts_built mac secret p S ro now hsid256 hsidq hor256 horq

/-- The issuer's token construction, in explicit two-segment form. -/
theorem createSessionToken_eq (mac : MacFun) (secret sid origin : List Nat) (now : Nat)
    (hsid256 : ∀ c ∈ sid, c < 256) (hor256 : ∀ c ∈ origin, c < 256) :
    createSessionToken mac secret sid origin now =
      some (b64EncodeBytes (serializePayload ⟨sid, origin, now, now + 24 * 60 * 60 * 1000⟩) ++
        46 :: b64EncodeBytes
          (mac secret (serializePayload ⟨sid, origin, now, now + 24 * 60 * 60 * 1000⟩))) := by
  unfold createSessionToken
  rw [if_pos]
  rw [List.all_eq_true]
  intro c hc
  exact decide_eq_true (serializePayload_lt256 _ hsid256 hor256 c hc)

/-! ## Character facts about allow-listed origins and generated sids -/

/-- A successful suffix consumption recovers the decomposition. -/
theorem dropSuf_eq_some (suf s m : List Nat) (h : dropSuf suf s = some m) :
    s = m ++ suf := by
  unfold dropSuf at h
  rcases hd : dropPre suf.reverse s.reverse with _ | r
  · rw [hd] at h; simp at h
  · rw [hd] at h
    simp at h
    subst h
    have := dropPre_eq_some _ _ _ hd
    have hs : s = (suf.reverse ++ r).reverse := by
      rw [← this, List.reverse_reverse]
    rw [hs, List.reverse_append, List.reverse_reverse]

/-- Word-or-dash characters are Latin-1 printable and are not the quote. -/
theorem isWordDash_safe (c : Nat) (h : isWordDash c = true) : c < 256 ∧ c ≠ 34 := by
  simp only [isWordDash, decide_eq_true_eq] at h
  omega

/-- Structure of a preview-domain match. -/
theorem matchesDom_structure (o : List Nat) (suf : String) (h : matchesDom o suf = true) :
    ∃ mid, o = strBytes "https://" ++ mid ++ strBytes suf ∧ mid ≠ [] ∧
      ∀ c ∈ mid, isWordDash c = true := by
  unfold matchesDom at h
  rcases hd : dropPre (strBytes "https://") o with _ | rest
  · rw [hd] at h; simp at h
  · rw [hd] at h
    simp only [] at h
    rcases hs : dropSuf (strBytes suf) rest with _ | mid
    · rw [hs] at h; simp at h
    · rw [hs] at h
      simp only [] at h
      simp only [Bool.and_eq_true, decide_eq_true_eq, List.all_eq_true] at h
      refine ⟨mid, ?_, h.1, fun c hc => h.2 c hc⟩
      rw [dropPre_eq_some _ _ _ hd, dropSuf_eq_some _ _ _ hs, List.append_assoc]

/-- Every allow-listed origin is nonempty, Latin-1 and quote-free. -/
theorem isAllowedOrigin_safe (o : List Nat) (h : isAllowedOrigin (some o) = true) :
    o ≠ [] ∧ (∀ c ∈ o, c < 256) ∧ (∀ c ∈ o, c ≠ 34) := by
  unfold isAllowedOrigin at h
  simp only [] at h
  by_cases hnil : o = []
  · rw [if_pos hnil] at h; simp at h
  · rw [if_neg hnil] at h
    refine ⟨hnil, ?_⟩
    by_cases hexact : o = strBytes "https://handwrite-to-taste.lovable.app"
        ∨ o = strBytes "http://localhost:5173" ∨ o = strBytes "http://localhost:8080"
    · rcases hexact with rfl | rfl | rfl
      · exact ⟨by decide, by decide⟩
      · exact ⟨by decide, by decide⟩
      · exact ⟨by decide, by decide⟩
    · rw [if_neg hexact] at h
      have hdom : matchesDom o ".lovable.app" = true ∨
          matchesDom o ".lovableproject.com" = true := by
        rcases Bool.or_eq_true_iff.mp h with h1 | h2
        · exact Or.inl h1
        · exact Or.inr h2
      have : ∃ mid pre sufb, o = pre ++ mid ++ sufb ∧ (∀ c ∈ pre, c < 256 ∧ c ≠ 34) ∧
          (∀ c ∈ sufb, c < 256 ∧ c ≠ 34) ∧ ∀ c ∈ mid, isWordDash c = true := by
        rcases hdom with h1 | h1
        · obtain ⟨mid, heq, _, hmid⟩ := matchesDom_structure _ _ h1
          exact ⟨mid, _, _, heq, by decide, by decide, hmid⟩
        · obtain ⟨mid, heq, _, hmid⟩ := matchesDom_structure _ _ h1
          exact ⟨mid, _, _, heq, by decide, by decide, hmid⟩
      obtain ⟨mid, pre, sufb, heq, hpre, hsuf, hmid⟩ := this
      subst heq
      constructor
      · intro c hc
        simp only [List.append_assoc, List.mem_append] at hc
        rcases hc with hc | hc | hc
        · exact (hpre c hc).1
        · exact (isWordDash_safe c (hmid c hc)).1
        · exact (hsuf c hc).1
      · intro c hc
        simp only [List.append_assoc, List.mem_append] at hc
        rcases hc with hc | hc | hc
        · exact (hpre c hc).2
        · exact (isWordDash_safe c (hmid c hc)).2
        · exact (hsuf c hc).2

/-- Lowercase-hex characters are word-or-dash characters. -/
theorem isLowerHexCode_wordDash (c : Nat) (h : isLowerHexCode c = true) :
    isWordDash c = true := by
  simp only [isLowerHexCode, decide_eq_true_eq] at h
  simp only [isWordDash, decide_eq_true_eq]
  omega

/-- Characters of a generated session identifier are word-or-dash. -/
theorem genSessionId_wordDash (t : Nat) (suffix : List Nat)
    (hsuf : ∀ c ∈ suffix, isLowerHexCode c = true) :
    ∀ c ∈ genSessionId t suffix, isWordDash c = true := by
  intro c hc
  unfold genSessionId at hc
  simp only [List.mem_append, List.mem_cons] at hc
  rcases hc with hc | rfl | hc
  · have := natToDigits_digits t c hc
    simp only [isWordDash, decide_eq_true_eq]
    omega
  · rfl
  · exact isLowerHexCode_wordDash c (hsuf c hc)

/-- Generated session identifiers are Latin-1 and quote-free. -/
theorem genSessionId_safe (t : Nat) (suffix : List Nat)
    (hsuf : ∀ c ∈ suffix, isLowerHexCode c = true) :
    (∀ c ∈ genSessionId t suffix, c < 256) ∧ ∀ c ∈ genSessionId t suffix, c ≠ 34 :=
  ⟨fun c hc => (isWordDash_safe c (genSessionId_wordDash t suffix hsuf c hc)).1,
   fun c hc => (isWordDash_safe c (genSessionId_wordDash t suffix hsuf c hc)).2⟩

/-- Evaluation of the sequential checks once expiry and origin pass. -/
theorem verifyChecks_eval (mac : MacFun) (secret payloadString : List Nat)
    (p : SessionPayload) (S : List Nat) (ro : Option (List Nat)) (now : Nat)
    (hexp : ¬ p.exp < now) (hom : originMismatch ro p.origin = false) :
    verifyChecks mac secret payloadString p S ro now =
      match base64urlDecode S with
      | none => .err "Token verification failed"
      | some signature =>
        if signature = mac secret payloadString then .ok p
        else .err "Invalid signature" := by
  unfold verifyChecks
  rw [if_neg hexp, hom]
  simp

/-! ## Concrete fixtures for closed evaluations -/

/-- Concrete stand-in for the HMAC-SHA256 digest in closed evaluations: a
deterministic function of secret and message with 32 output bytes. -/
def macFixed : MacFun := fun secret msg => List.replicate 32 ((secret.length + msg.length) % 256)

/-- Concrete signing secret for closed evaluations. -/
def secretFixed : List Nat := strBytes "test-secret"

/-! ## Claims about the issue and verify round trip -/

/-- C1: issuing a token at time t for an allow-listed origin with the
signing secret configured, and verifying it against the same origin at any
now before t plus 24 hours, yields valid with exactly the issued payload:
the generated sid, the requesting origin, iat t, exp t plus 86400000. -/
theorem claim_C1_issue_verify_roundtrip (mac : MacFun) (secret origin : List Nat)
    (t now : Nat) (suffix : List Nat)
    (hallow : isAllowedOrigin (some origin) = true)
    (hsuf : ∀ c ∈ suffix, isLowerHexCode c = true)
    (hmac : ∀ b ∈ mac secret
      (serializePayload ⟨genSessionId t suffix, origin, t, t + 86400000⟩), b < 256)
    (hnow : now < t + 86400000) :
    ∃ token,
      createSessionToken mac secret (genSessionId t suffix) origin t = some token ∧
      verifySessionToken mac secret token (some origin) now =
        .ok ⟨genSessionId t suffix, origin, t, t + 86400000⟩ := by
  obtain ⟨hsid256, hsidq⟩ := genSessionId_safe t suffix hsuf
  obtain ⟨-, hor256, horq⟩ := isAllowedOrigin_safe origin hallow
  refine ⟨_, createSessionToken_eq mac secret _ origin t hsid256 hor256, ?_⟩
  rw [verifySessionToken_built mac secret ⟨genSessionId t suffix, origin, t, t + 86400000⟩ _
    (some origin) now hsid256 hsidq hor256 horq
    (fun c hc => (mem_b64Encode_ne _ c hc).1)]
  rw [verifyChecks_eval mac secret _ _ _ _ now
    (show ¬ t + 86400000 < now from by omega)
    (show originMismatch (some origin) origin = false from by simp [originMismatch])]
  rw [base64urlDecode_b64Encode _ hmac]
  simp

/-- C9: when the verify call carries no origin, the origin binding is
skipped entirely: any token with a correct signature and an unexpired
payload verifies valid, whatever origin value the payload embeds. -/
theorem claim_C9_null_origin_skips_binding (mac : MacFun) (secret : List Nat)
    (p : SessionPayload) (now : Nat)
    (hsid256 : ∀ c ∈ p.sid, c < 256) (hsidq : ∀ c ∈ p.sid, c ≠ 34)
    (hor256 : ∀ c ∈ p.origin, c < 256) (horq : ∀ c ∈ p.origin, c ≠ 34)
    (hmac : ∀ b ∈ mac secret (serializePayload p), b < 256)
    (hnow : ¬ p.exp < now) :
    verifySessionToken mac secret
      (b64EncodeBytes (serializePayload p) ++
        46 :: b64EncodeBytes (mac secret (serializePayload p))) none now = .ok p := by
  rw [verifySessionToken_built mac secret p _ none now hsid256 hsidq hor256 horq
    (fun c hc => (mem_b64Encode_ne _ c hc).1)]
  rw [verifyChecks_eval mac secret _ _ _ _ now hnow
    (show originMismatch none p.origin = false from rfl)]
  rw [base64urlDecode_b64Encode _ hmac]
  simp

/-- C3: the expiry comparison precedes the signature check.  A token whose
decoded payload has exp strictly in the past is rejected as expired
whatever its signature segment holds; a token with exp at or after now is
never rejected as expired. -/
theorem claim_C3_expiry_precedes_signature (mac : MacFun) (secret : List Nat)
    (p : SessionPayload) (S : List Nat) (ro : Option (List Nat)) (now : Nat)
    (hsid256 : ∀ c ∈ p.sid, c < 256) (hsidq : ∀ c ∈ p.sid, c ≠ 34)
    (hor256 : ∀ c ∈ p.origin, c < 256) (horq : ∀ c ∈ p.origin, c ≠ 34)
    (hS46 : ∀ c ∈ S, c ≠ 46) :
    (p.exp < now →
      verifySessionToken mac secret (b64EncodeBytes (serializePayload p) ++ 46 :: S)
        ro now = .err "Session expired") ∧
    (¬ p.exp < now →
      verifySessionToken mac secret (b64EncodeBytes (serializePayload p) ++ 46 :: S)
        ro now ≠ .err "Session expired") := by
  rw [verifySessionToken_built mac secret p S ro now hsid256 hsidq hor256 horq hS46]
  constructor
  · intro hexp
    unfold verifyChecks
    rw [if_pos hexp]
  · intro hexp
    unfold verifyChecks
    rw [if_neg hexp]
    by_cases hom : originMismatch ro p.origin = true
    · rw [if_pos hom]
      decide
    · rw [if_neg hom]
      rcases base64urlDecode S with _ | sig
      · simp only []
        decide
      · simp only []
        by_cases hsig : sig = mac secret (serializePayload p)
        · rw [if_pos hsig]
          simp
        · rw [if_neg hsig]
          decide

/-- C4 (amended): the origin check runs after the expiry check, so the
origin_mismatch reason is produced exactly when the decoded payload is
unexpired and a nonempty request origin differs from the embedded one. -/
theorem claim_C4_origin_mismatch_amended (mac : MacFun) (secret : List Nat)
    (p : SessionPayload) (S ro : List Nat) (now : Nat)
    (hsid256 : ∀ c ∈ p.sid, c < 256) (hsidq : ∀ c ∈ p.sid, c ≠ 34)
    (hor256 : ∀ c ∈ p.origin, c < 256) (horq : ∀ c ∈ p.origin, c ≠ 34)
    (hS46 : ∀ c ∈ S, c ≠ 46)
    (hexp : ¬ p.exp < now) (hro_ne : ro ≠ []) (hro : p.origin ≠ ro) :
    verifySessionToken mac secret (b64EncodeBytes (serializePayload p) ++ 46 :: S)
      (some ro) now = .err "Origin mismatch" := by
  rw [verifySessionToken_built mac secret p S (some ro) now hsid256 hsidq hor256 horq hS46]
  unfold verifyChecks
  rw [if_neg hexp]
  have hom : originMismatch (some ro) p.origin = true := by
    simp [originMismatch, hro_ne, hro]
  rw [if_pos hom]

/-- C4 (counterexample): an expired token presented with a present,
différent origin is reported as expired, not as an origin mismatch, because
the expiry check runs first. -/
theorem claim_C4_counterexample :
    verifySessionToken macFixed secretFixed
      (b64EncodeBytes (serializePayload ⟨strBytes "s", strBytes "https://a.example", 0, 0⟩) ++
        46 :: b64EncodeBytes (macFixed secretFixed
          (serializePayload ⟨strBytes "s", strBytes "https://a.example", 0, 0⟩)))
      (some (strBytes "https://b.example")) 1 = .err "Session expired" ∧
    strBytes "https://b.example" ≠ strBytes "https://a.example" ∧
    VerifyResult.err "Session expired" ≠ VerifyResult.err "Origin mismatch" := by
  refine ⟨by decide, by decide, by decide⟩

/-- C5 (amended): the verifier is total and reports structural reasons for
an absent token, a wrong dot-segment count, a payload segment undecodable
by forgiving base64, or a decoded payload that is not valid JSON text; an
undecodable signature segment is rejected structurally only once expiry and
origin have passed, those checks running first.  The two segments are not
required to be non-empty: an empty signature segment decodes to the empty
byte string and is rejected later as a bad signature, not structurally. -/
theorem claim_C5_structural_errors_amended (mac : MacFun) (secret token : List Nat)
    (ro : Option (List Nat)) (now : Nat) :
    (token = [] →
      verifySessionToken mac secret token ro now = .err "No session token provided") ∧
    (token ≠ [] → (splitOnDot token).length ≠ 2 →
      verifySessionToken mac secret token ro now = .err "Invalid token format") ∧
    (∀ bp bs, token ≠ [] → splitOnDot token = [bp, bs] → base64urlDecode bp = none →
      verifySessionToken mac secret token ro now = .err "Token verification failed") ∧
    (∀ bp bs ps, token ≠ [] → splitOnDot token = [bp, bs] → base64urlDecode bp = some ps →
      jsonTextOk ps = false → parsePayloadJson ps = none →
      verifySessionToken mac secret token ro now = .err "Token verification failed") ∧
    (∀ p bs, token = b64EncodeBytes (serializePayload p) ++ 46 :: bs →
      (∀ c ∈ p.sid, 32 ≤ c ∧ c < 256 ∧ c ≠ 34 ∧ c ≠ 92) →
      (∀ c ∈ p.origin, 32 ≤ c ∧ c < 256 ∧ c ≠ 34 ∧ c ≠ 92) →
      (∀ c ∈ bs, c ≠ 46) →
      ¬ p.exp < now → originMismatch ro p.origin = false →
      base64urlDecode bs = none →
      verifySessionToken mac secret token ro now = .err "Token verification failed") := by
  refine ⟨?_, ?_, ?_, ?_, ?_⟩
  · intro h
    subst h
    rfl
  · intro hne hlen
    unfold verifySessionToken
    rw [if_neg hne]
    rcases hsplit : splitOnDot token with _ | ⟨a, rest⟩
    · rfl
    · rcases rest with _ | ⟨b, rest2⟩
      · rfl
      · rcases rest2 with _ | ⟨c, rest3⟩
        · rw [hsplit] at hlen
          simp at hlen
        · rfl
  · intro bp bs hne hsplit hdec
    unfold verifySessionToken
    rw [if_neg hne, hsplit]
    show verifyParts mac secret bp bs ro now = _
    unfold verifyParts
    rw [hdec]
  · intro bp bs ps hne hsplit hdec _hjson hparse
    unfold verifySessionToken
    rw [if_neg hne, hsplit]
    show verifyParts mac secret bp bs ro now = _
    unfold verifyParts
    rw [hdec]
    show verifyParsed mac secret ps bs ro now = _
    unfold verifyParsed
    rw [hparse]
  · intro p bs htok hsid hor hbs hexp hom hdec
    subst htok
    rw [verifySessionToken_built mac secret p bs ro now
      (fun c hc => (hsid c hc).2.1) (fun c hc => (hsid c hc).2.2.1)
      (fun c hc => (hor c hc).2.1) (fun c hc => (hor c hc).2.2.1) hbs]
    rw [verifyChecks_eval mac secret _ p bs ro now hexp hom, hdec]

/-- C5 (counterexample): a token whose second segment is empty has two
segments, one of them empty; it is not rejected with a structural reason
but with the signature reason, since the empty segment decodes to the empty
byte string and fails the digest comparison. -/
theorem claim_C5_counterexample :
    splitOnDot (b64EncodeBytes (serializePayload
        ⟨strBytes "s", strBytes "o", 0, 100⟩) ++ 46 :: []) =
      [b64EncodeBytes (serializePayload ⟨strBytes "s", strBytes "o", 0, 100⟩), []] ∧
    verifySessionToken macFixed secretFixed
      (b64EncodeBytes (serializePayload ⟨strBytes "s", strBytes "o", 0, 100⟩) ++ 46 :: [])
      none 0 = .err "Invalid signature" ∧
    VerifyResult.err "Invalid signature" ≠ VerifyResult.err "Invalid token format" ∧
    VerifyResult.err "Invalid signature" ≠ VerifyResult.err "Token verification failed" ∧
    VerifyResult.err "Invalid signature" ≠ VerifyResult.err "No session token provided" := by
  refine ⟨by decide, by decide, by decide, by decide, by decide⟩

/-- C2 (amended): with a token that verifies valid and a well-formed body,
the toggle-favorite update is gated solely on the body sessionId matching
the stored row's session_id; the sid embedded in the token is never
compared.  A mismatch of the body sessionId yields the 403 not-authorized
response and leaves the row unchanged; a match applies the update whatever
sid the token embeds. -/
theorem claim_C2_ownership_amended (mac : MacFun) (secret tok : List Nat)
    (origin : Option (List Nat)) (now : Nat) (body : ToggleBody) (r : StoredRecord)
    (p : SessionPayload) (fav : Bool)
    (htok : tok ≠ [])
    (hverify : verifySessionToken mac secret tok origin now = .ok p)
    (hid : body.id ≠ [])
    (htype : body.type = strBytes "menu" ∨ body.type = strBytes "product")
    (hfav : body.isFavorite = some fav)
    (hsess : body.sessionId ≠ []) :
    (r.session_id ≠ body.sessionId →
      toggleFavorite mac secret (some tok) origin now body (some r) =
        (.notAuthorized, some r)) ∧
    (r.session_id = body.sessionId →
      toggleFavorite mac secret (some tok) origin now body (some r) =
        (.success fav, some { r with is_favorite := fav })) := by
  have htype_ne : body.type ≠ [] := by
    rcases htype with h | h <;> rw [h] <;> decide
  have hguard : ¬ (body.id = [] ∨ body.type = [] ∨ body.isFavorite = none ∨
      body.sessionId = []) := by
    push_neg
    exact ⟨hid, htype_ne, by rw [hfav]; simp, hsess⟩
  have htguard : ¬ (body.type ≠ strBytes "menu" ∧ body.type ≠ strBytes "product") := by
    rcases htype with h | h <;> simp [h]
  constructor
  · intro hne
    unfold toggleFavorite
    simp only []
    rw [if_neg htok, hverify, if_neg hguard, if_neg htguard, if_pos hne]
  · intro heq
    unfold toggleFavorite
    simp only []
    rw [if_neg htok, hverify, if_neg hguard, if_neg htguard,
      if_neg (show ¬ r.session_id ≠ body.sessionId from by simp [heq]), hfav]
    rfl

/-- C2 (counterexample): a request bearing a valid token whose embedded sid
is sidA, while supplying sessionId sidB matching the stored row, performs
the update and returns success, although the token's sid neither equals the
stored session_id nor matches the supplied identifier. -/
theorem claim_C2_counterexample :
    verifySessionToken macFixed secretFixed
      (b64EncodeBytes (serializePayload ⟨strBytes "sidA", strBytes "o", 0, 100⟩) ++
        46 :: b64EncodeBytes (macFixed secretFixed
          (serializePayload ⟨strBytes "sidA", strBytes "o", 0, 100⟩)))
      none 0 = .ok ⟨strBytes "sidA", strBytes "o", 0, 100⟩ ∧
    strBytes "sidA" ≠ strBytes "sidB" ∧
    toggleFavorite macFixed secretFixed
      (some (b64EncodeBytes (serializePayload ⟨strBytes "sidA", strBytes "o", 0, 100⟩) ++
        46 :: b64EncodeBytes (macFixed secretFixed
          (serializePayload ⟨strBytes "sidA", strBytes "o", 0, 100⟩))))
      none 0
      ⟨strBytes "id1", strBytes "menu", some true, strBytes "sidB"⟩
      (some ⟨strBytes "id1", strBytes "sidB", false⟩) =
      (.success true, some ⟨strBytes "id1", strBytes "sidB", true⟩) := by
  refine ⟨by decide, by decide, by decide⟩

/-! ## Rate limiter behaviour -/

/-- State of a limiter after j same-instant calls for one key, starting
from the cold-start state. -/
def rateStateIter (w m : Nat) (ip : String) (t : Nat) : Nat → RateState
  | 0 => emptyRateState
  | j + 1 => (checkRateLimit w m (rateStateIter w m ip t j) ip t).2

/-- A rejected call leaves the limiter state untouched. -/
theorem checkRateLimit_false_state (w m : Nat) (st : RateState) (ip : String) (now : Nat)
    (h : (checkRateLimit w m st ip now).1 = false) :
    checkRateLimit w m st ip now = (false, st) := by
  by_cases hc : m ≤ ((st ip).filter (fun u => now - u < w)).length
  · exact if_pos hc
  · exfalso
    have he : checkRateLimit w m st ip now =
        (true, fun k => if k = ip then
          (st ip).filter (fun u => now - u < w) ++ [now] else st k) := if_neg hc
    rw [he] at h
    simp at h

/-- Within the window, j accepted same-instant calls record j timestamps. -/
theorem rateStateIter_spec (w m : Nat) (ip : String) (t : Nat) (hw : 0 < w) :
    ∀ j, j ≤ m → rateStateIter w m ip t j ip = List.replicate j t := by
  intro j
  induction j with
  | zero => intro _; rfl
  | succ j ih =>
    intro hj
    have hst := ih (by omega)
    have hfil : (List.replicate j t).filter (fun u => t - u < w) = List.replicate j t := by
      rw [List.filter_eq_self]
      intro a ha
      have : a = t := by
        have := List.eq_of_mem_replicate ha
        omega
      subst this
      simp
      omega
    have hcond : ¬ m ≤ ((rateStateIter w m ip t j ip).filter (fun u => t - u < w)).length := by
      rw [hst, hfil]
      simp
      omega
    show (checkRateLimit w m (rateStateIter w m ip t j) ip t).2 ip = _
    have he : checkRateLimit w m (rateStateIter w m ip t j) ip t =
        (true, fun k => if k = ip then
          (rateStateIter w m ip t j ip).filter (fun u => t - u < w) ++ [t]
          else rateStateIter w m ip t j k) := if_neg hcond
    rw [he]
    simp only [if_pos rfl]
    rw [hst, hfil, ← List.replicate_succ']
    simp

/-- C6: the limiter retains exactly the timestamps strictly inside the
trailing window, rejects without recording at the cap and records the call
instant otherwise; with the issuance cap at 10 and the business cap at 20
over one hour, the call after the cap within the window is rejected and a
call after the window has passed is accepted again. -/
theorem claim_C6_rate_limiter :
    SESSION_RATE_LIMIT_WINDOW_MS = 3600000 ∧ MAX_SESSIONS_PER_WINDOW = 10 ∧
    RATE_LIMIT_WINDOW_MS = 3600000 ∧ MAX_REQUESTS_PER_WINDOW = 20 ∧
    (∀ (w m : Nat) (st : RateState) (ip : String) (now : Nat),
      (m ≤ ((st ip).filter (fun u => now - u < w)).length →
        checkRateLimit w m st ip now = (false, st)) ∧
      (((st ip).filter (fun u => now - u < w)).length < m →
        (checkRateLimit w m st ip now).1 = true ∧
        (checkRateLimit w m st ip now).2 ip =
          (st ip).filter (fun u => now - u < w) ++ [now] ∧
        ∀ k, k ≠ ip → (checkRateLimit w m st ip now).2 k = st k)) ∧
    (∀ (w m : Nat) (ip : String) (t tmid tlate : Nat), 0 < w → 0 < m →
      tmid - t < w → w ≤ tlate - t →
      (∀ j, j < m → (checkRateLimit w m (rateStateIter w m ip t j) ip t).1 = true) ∧
      (checkRateLimit w m (rateStateIter w m ip t m) ip tmid).1 = false ∧
      (checkRateLimit w m (rateStateIter w m ip t m) ip tlate).1 = true) := by
  refine ⟨rfl, rfl, rfl, rfl, ?_, ?_⟩
  · intro w m st ip now
    constructor
    · intro h
      exact if_pos h
    · intro h
      have he : checkRateLimit w m st ip now =
          (true, fun k => if k = ip then
            (st ip).filter (fun u => now - u < w) ++ [now] else st k) :=
        if_neg (by omega)
      rw [he]
      refine ⟨rfl, by simp, fun k hk => by simp [hk]⟩
  · intro w m ip t tmid tlate hw hm hmid hlate
    refine ⟨?_, ?_, ?_⟩
    · intro j hj
      have hst := rateStateIter_spec w m ip t hw j (by omega)
      have hfil : (List.replicate j t).filter (fun u => t - u < w) = List.replicate j t := by
        rw [List.filter_eq_self]
        intro a ha
        have : a = t := List.eq_of_mem_replicate ha
        subst this
        simp
        omega
      have hcond : ¬ m ≤ ((rateStateIter w m ip t j ip).filter
          (fun u => t - u < w)).length := by
        rw [hst, hfil]
        simp
        omega
      exact congrArg Prod.fst (if_neg hcond)
    · have hst := rateStateIter_spec w m ip t hw m (Nat.le_refl m)
      have hfil : (List.replicate m t).filter (fun u => tmid - u < w) =
          List.replicate m t := by
        rw [List.filter_eq_self]
        intro a ha
        have : a = t := List.eq_of_mem_replicate ha
        subst this
        simp
        omega
      have hcond : m ≤ ((rateStateIter w m ip t m ip).filter
          (fun u => tmid - u < w)).length := by
        rw [hst, hfil]
        simp
      exact congrArg Prod.fst (if_pos hcond)
    · have hst := rateStateIter_spec w m ip t hw m (Nat.le_refl m)
      have hfil : (List.replicate m t).filter (fun u => tlate - u < w) = [] := by
        rw [List.filter_eq_nil_iff]
        intro a ha
        have : a = t := List.eq_of_mem_replicate ha
        subst this
        simp
        omega
      have hcond : ¬ m ≤ ((rateStateIter w m ip t m ip).filter
          (fun u => tlate - u < w)).length := by
        rw [hst, hfil]
        simp
        omega
      exact congrArg Prod.fst (if_neg hcond)

/-- C8: ensureValidSession returns the cached token and leaves the state
untouched, without consulting the issuer, while the record clears the
five-minute buffer; with no record, or a record inside the buffer or past
expiry, it clears the record and takes the issuer outcome: on success it
stores the new record and returns its token, on failure it returns null
with no record kept. -/
theorem claim_C8_session_manager (st : ClientState) (now : Nat)
    (issuer : Option SessionData) :
    (∀ s, st.record = some s → now + EXPIRY_BUFFER_MS < s.expiresAt →
      ensureValidSession st now issuer = (some s.token, st)) ∧
    ((st.record = none ∨ ∃ s, st.record = some s ∧ s.expiresAt ≤ now + EXPIRY_BUFFER_MS) →
      (∀ ns, issuer = some ns →
        ensureValidSession st now issuer = (some ns.token, ⟨some ns⟩)) ∧
      (issuer = none → ensureValidSession st now issuer = (none, ⟨none⟩))) := by
  obtain ⟨rec⟩ := st
  rcases rec with _ | s
  · refine ⟨fun s hs => by simp at hs, fun _ => ⟨fun ns hns => ?_, fun hns => ?_⟩⟩
    · subst hns
      rfl
    · subst hns
      rfl
  · constructor
    · intro s2 hs2 hfresh
      have : s2 = s := by
        simpa using hs2.symm
      subst this
      unfold ensureValidSession
      simp only []
      rw [if_pos hfresh]
    · intro hstale
      have hexp : s.expiresAt ≤ now + EXPIRY_BUFFER_MS := by
        rcases hstale with h | ⟨s2, hs2, h⟩
        · simp at h
        · have : s2 = s := by simpa using hs2.symm
          subst this
          exact h
      constructor
      · intro ns hns
        subst hns
        unfold ensureValidSession
        simp only []
        rw [if_neg (by omega)]
      · intro hns
        subst hns
        unfold ensureValidSession
        simp only []
        rw [if_neg (by omega)]

/-- A rejected create-session limiter call leaves the map unchanged. -/
theorem checkRateLimitSession_false (st : RateState) (ip : String) (now : Nat)
    (h : (checkRateLimitSession st ip now).1 = false) :
    checkRateLimitSession st ip now = (false, st) :=
  checkRateLimit_false_state _ _ st ip now h

/-- C7 (amended): the create-session handler consults the rate limiter
before the origin allow-list, so a rate-limited IP receives 429 whatever
its origin; an origin failing the allow-list receives 403 only when the
rate limiter accepted (and that acceptance has already recorded the call);
no token is issued on either failure path. -/
theorem claim_C7_issuer_failures_amended (mac : MacFun) (secret : List Nat)
    (st : RateState) (origin : Option (List Nat)) (ip : String) (now : Nat)
    (suffix : List Nat) :
    ((checkRateLimitSession st ip now).1 = false →
      handleCreateSession mac secret st origin ip now suffix = (.rateLimited, st)) ∧
    ((checkRateLimitSession st ip now).1 = true → isAllowedOrigin origin = false →
      handleCreateSession mac secret st origin ip now suffix =
        (.invalidOrigin, (checkRateLimitSession st ip now).2)) ∧
    (∀ sessionId token,
      (checkRateLimitSession st ip now).1 = false ∨ isAllowedOrigin origin = false →
      (handleCreateSession mac secret st origin ip now suffix).1 ≠
        .success sessionId token) := by
  have hA : (checkRateLimitSession st ip now).1 = false →
      handleCreateSession mac secret st origin ip now suffix = (.rateLimited, st) := by
    intro h
    unfold handleCreateSession
    simp only []
    rw [if_pos h, checkRateLimitSession_false st ip now h]
  have hB : (checkRateLimitSession st ip now).1 = true → isAllowedOrigin origin = false →
      handleCreateSession mac secret st origin ip now suffix =
        (.invalidOrigin, (checkRateLimitSession st ip now).2) := by
    intro h1 h2
    unfold handleCreateSession
    simp only []
    rw [if_neg (by simp [h1]), if_pos h2]
  refine ⟨hA, hB, ?_⟩
  intro sessionId token hor hcontra
  rcases hor with h | h
  · rw [hA h] at hcontra
    simp at hcontra
  · rcases Bool.eq_false_or_eq_true (checkRateLimitSession st ip now).1 with hf | hf
    · rw [hB hf h] at hcontra
      simp at hcontra
    · rw [hA hf] at hcontra
      simp at hcontra

/-- C7 (counterexample): a request whose origin fails the allow-list but
whose IP has exhausted the issuance budget is answered with the rate-limit
rejection, not the 403 origin rejection, because the limiter runs first. -/
theorem claim_C7_counterexample :
    isAllowedOrigin (some (strBytes "https://evil.example")) = false ∧
    (handleCreateSession macFixed secretFixed (fun _ => List.replicate 10 0)
      (some (strBytes "https://evil.example")) "ip-a" 5 (strBytes "abcdef01")).1 =
      .rateLimited ∧
    IssueResponse.rateLimited ≠ IssueResponse.invalidOrigin := by
  refine ⟨by decide, by decide, by decide⟩

/-- C10: every sessionId the issuer generates is the decimal issuance
instant, a dash, and the eight lowercase-hex characters; it is nonempty,
shorter than 100 characters, all its characters lie in the accepted class,
and the save endpoint's sessionId validation accepts it. -/
theorem claim_C10_sessionId_shape (t : Nat) (suffix : List Nat)
    (ht : t < 10 ^ 90) (hlen : suffix.length = 8)
    (hsuf : ∀ c ∈ suffix, isLowerHexCode c = true) :
    genSessionId t suffix = natToDigits t ++ 45 :: suffix ∧
    genSessionId t suffix ≠ [] ∧
    (genSessionId t suffix).length < 100 ∧
    (∀ c ∈ genSessionId t suffix, isWordDash c = true) ∧
    validateSessionIdOk (genSessionId t suffix) = true := by
  have hwd := genSessionId_wordDash t suffix hsuf
  have hne : genSessionId t suffix ≠ [] := by
    unfold genSessionId
    simp
  have hlength : (genSessionId t suffix).length < 100 := by
    unfold genSessionId
    have := natToDigits_length_le 90 t (by omega) ht
    simp only [List.length_append, List.length_cons]
    omega
  refine ⟨rfl, hne, hlength, hwd, ?_⟩
  unfold validateSessionIdOk
  simp only [Bool.and_eq_true, decide_eq_true_eq, List.all_eq_true]
  exact ⟨⟨hne, by omega⟩, hwd⟩

/-! ## Concrete instantiations -/

/-- Concrete payload used in closed instantiations. -/
def payloadA : SessionPayload := ⟨strBytes "sidA", strBytes "o", 0, 100⟩

/-- Concrete valid token carrying payloadA, signed with the concrete
digest. -/
def tokenA : List Nat :=
  b64EncodeBytes (serializePayload payloadA) ++
    46 :: b64EncodeBytes (macFixed secretFixed (serializePayload payloadA))

theorem claim_C1_witness :
    ∃ token, createSessionToken macFixed secretFixed
        (genSessionId 5 (strBytes "abcd0123")) (strBytes "http://localhost:5173") 5 =
        some token ∧
      verifySessionToken macFixed secretFixed token
        (some (strBytes "http://localhost:5173")) 6 =
        .ok ⟨genSessionId 5 (strBytes "abcd0123"), strBytes "http://localhost:5173", 5,
          5 + 86400000⟩ :=
  claim_C1_issue_verify_roundtrip macFixed secretFixed (strBytes "http://localhost:5173")
    5 6 (strBytes "abcd0123") (by decide) (by decide) (by decide) (by decide)

theorem claim_C9_witness :
    verifySessionToken macFixed secretFixed tokenA none 0 = .ok payloadA :=
  claim_C9_null_origin_skips_binding macFixed secretFixed payloadA 0
    (by decide) (by decide) (by decide) (by decide) (by decide) (by decide)

theorem claim_C3_witness :
    verifySessionToken macFixed secretFixed
      (b64EncodeBytes (serializePayload ⟨strBytes "s", strBytes "o", 0, 3⟩) ++
        46 :: strBytes "xx") none 7 = .err "Session expired" :=
  (claim_C3_expiry_precedes_signature macFixed secretFixed ⟨strBytes "s", strBytes "o", 0, 3⟩
    (strBytes "xx") none 7 (by decide) (by decide) (by decide) (by decide)
    (by decide)).1 (by decide)

theorem claim_C4_witness :
    verifySessionToken macFixed secretFixed
      (b64EncodeBytes (serializePayload ⟨strBytes "s", strBytes "https://a.example", 0, 9⟩) ++
        46 :: strBytes "xx") (some (strBytes "https://b.example")) 1 =
      .err "Origin mismatch" :=
  claim_C4_origin_mismatch_amended macFixed secretFixed
    ⟨strBytes "s", strBytes "https://a.example", 0, 9⟩ (strBytes "xx")
    (strBytes "https://b.example") 1 (by decide) (by decide) (by decide) (by decide)
    (by decide) (by decide) (by decide) (by decide)

theorem claim_C5_witness :
    verifySessionToken macFixed secretFixed (strBytes "x") none 0 =
      .err "Invalid token format" :=
  (claim_C5_structural_errors_amended macFixed secretFixed (strBytes "x") none 0).2.1
    (by decide) (by decide)

theorem claim_C2_witness :
    toggleFavorite macFixed secretFixed (some tokenA) none 0
      ⟨strBytes "id1", strBytes "menu", some true, strBytes "sidB"⟩
      (some ⟨strBytes "id1", strBytes "sidC", false⟩) =
      (.notAuthorized, some ⟨strBytes "id1", strBytes "sidC", false⟩) :=
  (claim_C2_ownership_amended macFixed secretFixed tokenA none 0
    ⟨strBytes "id1", strBytes "menu", some true, strBytes "sidB"⟩
    ⟨strBytes "id1", strBytes "sidC", false⟩ payloadA true
    (by decide) (by decide) (by decide) (by decide) (by decide) (by decide)).1 (by decide)

theorem claim_C6_witness :
    (checkRateLimit 3600000 10 (rateStateIter 3600000 10 "a" 0 10) "a" 1).1 = false ∧
    (checkRateLimit 3600000 10 (rateStateIter 3600000 10 "a" 0 10) "a" 3600000).1 = true :=
  ⟨(claim_C6_rate_limiter.2.2.2.2.2 3600000 10 "a" 0 1 3600000
      (by decide) (by decide) (by decide) (by decide)).2.1,
   (claim_C6_rate_limiter.2.2.2.2.2 3600000 10 "a" 0 1 3600000
      (by decide) (by decide) (by decide) (by decide)).2.2⟩

theorem claim_C7_witness :
    handleCreateSession macFixed secretFixed (fun _ => List.replicate 10 0)
      (some (strBytes "http://localhost:5173")) "ip-a" 5 (strBytes "abcdef01") =
      (.rateLimited, fun _ => List.replicate 10 0) :=
  (claim_C7_issuer_failures_amended macFixed secretFixed (fun _ => List.replicate 10 0)
    (some (strBytes "http://localhost:5173")) "ip-a" 5 (strBytes "abcdef01")).1 (by decide)

theorem claim_C8_witness :
    ensureValidSession ⟨some ⟨strBytes "sid", strBytes "tok", 1000000000⟩⟩ 0 none =
      (some (strBytes "tok"), ⟨some ⟨strBytes "sid", strBytes "tok", 1000000000⟩⟩) :=
  (claim_C8_session_manager ⟨some ⟨strBytes "sid", strBytes "tok", 1000000000⟩⟩ 0 none).1
    ⟨strBytes "sid", strBytes "tok", 1000000000⟩ rfl (by decide)

theorem claim_C10_witness :
    validateSessionIdOk (genSessionId 1700000000000 (strBytes "abcd0123")) = true :=
  (claim_C10_sessionId_shape 1700000000000 (strBytes "abcd0123") (by decide) (by decide)
    (by decide)).2.2.2.2
